import Mathlib

/-!
Shallow embedding of the continuous acquisition engine of
src/src/data_aquisition/ADHAT_c_subroutine_NO_SOCKET.c.

Raw ADC readings are modelled as natural numbers (the driver's UDOUBLE
readings are 32-bit); the C doubles holding voltages and the tracked LO
frequency are modelled as exact rationals, which is faithful here because
every arithmetic step performed by the program on those quantities
(division by a constant, multiplication by 5, addition of the 2 MHz step,
comparison against thresholds) is exact on the values the program uses.
-/

namespace Adhat

/-- Frequency sweep parameters, from the C constants. -/
def FREQ_MIN : ℚ := 650

/-- Ending frequency (MHz). -/
def FREQ_MAX : ℚ := 850

/-- Frequency increment per step (MHz). -/
def FREQ_STEP : ℚ := 2

/-- GPIO pin driving the frequency-increment control line. -/
def GPIO_FREQ_INCREMENT : ℕ := 4

/-- GPIO pin driving the frequency-reset control line. -/
def GPIO_FREQ_RESET : ℕ := 5

/-- Number of sweeps to collect on state 2 before setting the exit flag. -/
def STATE2_MAX_SWEEPS : ℕ := 3

/-- Bipolar ADC transfer function used in READ_SWITCH_STATE (and
READ_SYSTEM_VOLTAGE): when the 32-bit reading's top bit is set the code
computes 5 * 2 - value/2147483648.0 * 5, otherwise value/2147483647.8 * 5.
The C shift (value >> 31) on a 32-bit reading is division by 2^31. -/
def adcToVoltage (raw : ℕ) : ℚ :=
  if raw / 2 ^ 31 = 1 then
    5 * 2 - (raw : ℚ) / 2147483648 * 5
  else
    (raw : ℚ) / (2147483647.8 : ℚ) * 5

/-- Threshold step of READ_SWITCH_STATE: on_or_off = (vlt < 3) ? 0 : 1. -/
def voltBit (v : ℚ) : ℕ := if v < 3 then 0 else 1

/-- READ_SWITCH_STATE's loop over channels 7, 8, 9 of HAT 12, with the
channel readings supplied as arguments; each iteration adds
on_or_off * exp2(i - 7) to the accumulated state. -/
def READ_SWITCH_STATE (a7 a8 a9 : ℕ) : ℕ :=
  [(7, a7), (8, a8), (9, a9)].foldl
    (fun state p => state + voltBit (adcToVoltage p.2) * 2 ^ (p.1 - 7)) 0

/-- Spec-side composition of the three thresholded voltages into a 3-bit
state, bit i weighted by 2^i over the channels in ascending order. -/
def decodeSwitchVoltages (v7 v8 v9 : ℚ) : ℕ :=
  voltBit v7 * 2 ^ 0 + voltBit v8 * 2 ^ 1 + voltBit v9 * 2 ^ 2

/-- Events emitted on the GPIO lines by the frequency controller. -/
inductive GpioEvent : Type
  | write (pin : ℕ) (level : ℕ)
  | sleepUs (us : ℕ)
  deriving DecidableEq, Repr

/-- INCREMENT_LO_FREQUENCY: takes the tracked LO frequency, returns the new
tracked frequency together with the sequence of GPIO writes and sleeps the
call performs, in program order. -/
def INCREMENT_LO_FREQUENCY (f : ℚ) : ℚ × List GpioEvent :=
  if f < FREQ_MAX - FREQ_STEP then
    (f + FREQ_STEP,
      [GpioEvent.write GPIO_FREQ_INCREMENT 0,
       GpioEvent.sleepUs 500,
       GpioEvent.write GPIO_FREQ_INCREMENT 1,
       GpioEvent.write GPIO_FREQ_RESET 1])
  else
    (FREQ_MIN,
      [GpioEvent.write GPIO_FREQ_RESET 0,
       GpioEvent.sleepUs 2000,
       GpioEvent.sleepUs 500,
       GpioEvent.write GPIO_FREQ_INCREMENT 1,
       GpioEvent.write GPIO_FREQ_RESET 1])

/-- Tracked-frequency component of INCREMENT_LO_FREQUENCY. -/
def incFreq (f : ℚ) : ℚ := (INCREMENT_LO_FREQUENCY f).1

/-- Frequency stamped at row n of a sweep that starts from FREQ_MIN: the
code stamps the current LO_FREQ into the row and then advances it. -/
def freqAt : ℕ → ℚ
  | 0 => FREQ_MIN
  | n + 1 => incFreq (freqAt n)

/-- Unfolding lemma: the switch-state loop composes the three thresholded
voltages with weights 1, 2, 4. -/
theorem READ_SWITCH_STATE_eq (a7 a8 a9 : ℕ) :
    READ_SWITCH_STATE a7 a8 a9 =
      decodeSwitchVoltages (adcToVoltage a7) (adcToVoltage a8) (adcToVoltage a9) := by
  simp [READ_SWITCH_STATE, decodeSwitchVoltages, List.foldl]

/-- A reading of zero thresholds to bit 0 on its channel. -/
theorem adcToVoltage_zero : adcToVoltage 0 = 0 := by
  norm_num [adcToVoltage]

/-- A reading with only the sign bit set converts to 5 V. -/
theorem adcToVoltage_signBit : adcToVoltage (2 ^ 31) = 5 := by
  norm_num [adcToVoltage]

/-- Raw readings (0, 2^31, 0) decode to switch state 2. -/
theorem readState2 : READ_SWITCH_STATE 0 (2 ^ 31) 0 = 2 := by
  rw [READ_SWITCH_STATE_eq, adcToVoltage_zero, adcToVoltage_signBit]
  norm_num [decodeSwitchVoltages, voltBit]

/-- Raw readings (0, 0, 0) decode to switch state 0. -/
theorem readState0 : READ_SWITCH_STATE 0 0 0 = 0 := by
  rw [READ_SWITCH_STATE_eq, adcToVoltage_zero]
  norm_num [decodeSwitchVoltages, voltBit]

/-- Closed form of the stamped-frequency sequence on rows 0 through 99. -/
theorem freqAt_closed (k : ℕ) (hk : k ≤ 99) : freqAt k = 650 + 2 * (k : ℚ) := by
  induction k with
  | zero => norm_num [freqAt, FREQ_MIN]
  | succ n ih =>
    have hn : n ≤ 99 := Nat.le_of_succ_le hk
    have hn98 : n ≤ 98 := by omega
    rw [freqAt, ih hn, incFreq, INCREMENT_LO_FREQUENCY]
    rw [if_pos]
    · rw [FREQ_STEP]
      push_cast
      ring
    · have : (n : ℚ) ≤ 98 := by exact_mod_cast hn98
      rw [FREQ_MAX, FREQ_STEP]
      linarith

/-- Row 99 is stamped with 848 MHz. -/
theorem freqAt_99 : freqAt 99 = 848 := by
  rw [freqAt_closed 99 (by norm_num)]
  norm_num

/-- Row 100 wraps back to 650 MHz; 850 MHz is never emitted. -/
theorem freqAt_100 : freqAt 100 = 650 := by
  have : (100 : ℕ) = 99 + 1 := rfl
  rw [this, freqAt, freqAt_99, incFreq, INCREMENT_LO_FREQUENCY]
  rw [if_neg]
  · rfl
  · rw [FREQ_MAX, FREQ_STEP]
    norm_num

/-- One sample row of the buffer (GetAllValues): the three ADHAT channel
arrays are abstracted into one payload, the timestamp string into a payload
number; the STATE and FREQUENCY fields hold the values the code formats
into their strings. -/
structure Row : Type where
  adc : ℕ
  time : ℕ
  state : ℕ
  freq : ℚ
  deriving DecidableEq, Repr

/-- Per-iteration environment inputs: the three auxiliary channel readings
consumed by READ_SWITCH_STATE, the ADC payload and timestamp payload for
this iteration, whether GET_TIME succeeds, and whether a SIGINT is
delivered during this iteration. -/
structure IterInput : Type where
  aux7 : ℕ
  aux8 : ℕ
  aux9 : ℕ
  adc : ℕ
  time : ℕ
  timestampOk : Bool
  sigint : Bool
  deriving DecidableEq, Repr

/-- Process-wide engine state: the globals LO_FREQ, state2_sweeps_collected,
exit_flag and buffer_to_write, the main-loop locals row_index and
current_buffer, and the two buffers. Buffer slots are Option Row: none
models a slot not yet written by GET_DATA during the run (the C arrays are
zero-initialized at allocation). The handed field is the history of
buffer-handoff events (each snapshot taken when buffer_to_write is set),
and totalWrites counts the row writes GET_DATA has performed. -/
structure EngineState : Type where
  loFreq : ℚ
  state2Sweeps : ℕ
  exitFlag : Bool
  rowIndex : ℕ
  currentBuffer : ℕ
  bufA : List (Option Row)
  bufB : List (Option Row)
  bufferToWrite : ℕ
  handed : List (List (Option Row))
  totalWrites : ℕ
  deriving DecidableEq, Repr

/-- The buffer currently being filled (bufferA when current_buffer is 1). -/
def activeBuf (s : EngineState) : List (Option Row) :=
  if s.currentBuffer = 1 then s.bufA else s.bufB

/-- State at entry of the main acquisition loop. -/
def initState (nrows : ℕ) : EngineState :=
  { loFreq := FREQ_MIN
    state2Sweeps := 0
    exitFlag := false
    rowIndex := 0
    currentBuffer := 1
    bufA := List.replicate nrows none
    bufB := List.replicate nrows none
    bufferToWrite := 0
    handed := []
    totalWrites := 0 }

/-- Write one row into the active buffer at the current row index. -/
def writeActive (s : EngineState) (r : Row) : EngineState :=
  if s.currentBuffer = 1 then
    { s with bufA := s.bufA.set s.rowIndex (some r), totalWrites := s.totalWrites + 1 }
  else
    { s with bufB := s.bufB.set s.rowIndex (some r), totalWrites := s.totalWrites + 1 }

/-- GET_DATA on the active buffer at the current row index. Mirrors the C
control flow: bounds validation; switch-state read; state-2 counter and
exit-flag handling; timestamp acquisition (failure returns -1 after the
state-2 handling, leaving the buffer untouched); ADC collection and
metadata stamping into the row; frequency advance. Returns the updated
state and the C return value. -/
def getData (nrows : ℕ) (s : EngineState) (inp : IterInput) : EngineState × Int :=
  if nrows ≤ s.rowIndex then (s, -1)
  else
    let st := READ_SWITCH_STATE inp.aux7 inp.aux8 inp.aux9
    let s1 :=
      if st = 2 then
        let c := s.state2Sweeps + 1
        if STATE2_MAX_SWEEPS ≤ c then
          { s with exitFlag := true, state2Sweeps := 0 }
        else
          { s with state2Sweeps := c }
      else s
    if inp.timestampOk = false then (s1, -1)
    else
      let s2 := writeActive s1 (Row.mk inp.adc inp.time st s1.loFreq)
      let s3 := { s2 with loFreq := (INCREMENT_LO_FREQUENCY s2.loFreq).1 }
      (s3, 0)

/-- One iteration of the main acquisition loop: a SIGINT delivered during
the iteration sets the exit flag; GET_DATA runs; if it failed or the exit
flag is set the loop breaks (before the row index advances and before any
handoff); otherwise the row index advances and, when it reaches nrows, the
full buffer is marked pending for the writer, the buffers swap and the row
index resets. Returns the new state and whether the loop breaks. -/
def mainStep (nrows : ℕ) (s : EngineState) (inp : IterInput) : EngineState × Bool :=
  let s0 := if inp.sigint then { s with exitFlag := true } else s
  let gd := getData nrows s0 inp
  let s1 := gd.1
  if gd.2 ≠ 0 ∨ s1.exitFlag then (s1, true)
  else
    let s2 := { s1 with rowIndex := s1.rowIndex + 1 }
    if nrows ≤ s2.rowIndex then
      ({ s2 with
          bufferToWrite := s2.currentBuffer
          handed := s2.handed ++ [activeBuf s2]
          currentBuffer := if s2.currentBuffer = 1 then 2 else 1
          rowIndex := 0 }, false)
    else (s2, false)

/-- The main acquisition loop over a finite schedule of iteration inputs,
checking the exit flag at the top of each iteration as the C while loop
does. -/
def runLoop (nrows : ℕ) : EngineState → List IterInput → EngineState
  | s, [] => s
  | s, inp :: rest =>
    if s.exitFlag then s
    else
      let ms := mainStep nrows s inp
      if ms.2 then ms.1 else runLoop nrows ms.1 rest

/-- The acquisition loop started from the initial state. -/
def engineRun (nrows : ℕ) (inputs : List IterInput) : EngineState :=
  runLoop nrows (initState nrows) inputs

/-- Shared state observed by the writer thread when it wakes. -/
structure WriterShared : Type where
  bufferToWrite : ℕ
  exitFlag : Bool
  bufA : List (Option Row)
  bufB : List (Option Row)
  deriving DecidableEq, Repr

/-- The condition under which the writer thread's wait loop lets it
proceed: a buffer is pending or the exit flag is set. -/
def writerCanProceed (sh : WriterShared) : Prop :=
  sh.bufferToWrite ≠ 0 ∨ sh.exitFlag = true

/-- Outcome of one wake of the writer thread. -/
inductive WriterOutcome : Type
  | terminated
  | wrote (buf : List (Option Row))
  | idle
  deriving DecidableEq, Repr

/-- One wake of writer_thread_func after its wait loop exits: if the exit
flag is set it breaks out (terminates); otherwise it selects the pending
buffer, clears the pending marker, and saves the buffer (returning to
waiting afterwards). -/
def writerWake (sh : WriterShared) : WriterShared × WriterOutcome :=
  if sh.exitFlag then (sh, WriterOutcome.terminated)
  else
    let buf : Option (List (Option Row)) :=
      if sh.bufferToWrite = 1 then some sh.bufA
      else if sh.bufferToWrite = 2 then some sh.bufB
      else none
    let sh' := { sh with bufferToWrite := 0 }
    match buf with
    | some b => (sh', WriterOutcome.wrote b)
    | none => (sh', WriterOutcome.idle)

/-- Result of a whole process run: the exit code, whether the acquisition
loop was entered, and the engine state at loop exit when it was. -/
structure ProgramResult : Type where
  exitCode : Int
  loopEntered : Bool
  finalState : Option EngineState
  deriving DecidableEq, Repr

/-- The main function's startup sequence and loop, with the environment
outcomes (allocation successes, ADC-driver and pigpio initialization
successes, iteration inputs) supplied as parameters. Follows the C order:
argc check, nrows parse check, start_freq parse check, end_freq parse
check, buffer allocation, INITIALIZE_ADS (whose failure path calls
exit(0)), gpioInitialise, then the acquisition loop and a final return 0.
The parsed start_freq and end_freq are validated and then unused. -/
def programRun (argc : ℕ) (nrowsArg startFreqArg endFreqArg : Int)
    (allocAOk allocBOk adsOk gpioOk : Bool) (inputs : List IterInput) :
    ProgramResult :=
  if argc < 4 then ProgramResult.mk 1 false none
  else if nrowsArg ≤ 0 then ProgramResult.mk 1 false none
  else if startFreqArg ≤ 0 then ProgramResult.mk 1 false none
  else if endFreqArg ≤ 0 then ProgramResult.mk 1 false none
  else if allocAOk = false ∨ allocBOk = false then ProgramResult.mk 1 false none
  else if adsOk = false then ProgramResult.mk 0 false none
  else if gpioOk = false then ProgramResult.mk 1 false none
  else ProgramResult.mk 0 true (some (engineRun nrowsArg.toNat inputs))

/-- Each thresholded bit is at most 1. -/
theorem voltBit_le_one (v : ℚ) : voltBit v ≤ 1 := by
  unfold voltBit
  split <;> norm_num

/-- C1: READ_SWITCH_STATE converts each of the three auxiliary channel
readings (channels 7, 8, 9 in ascending order) to a voltage by the bipolar
transfer function (sign bit set: 10 - raw/2^31 * 5; otherwise
raw/(2^31 - 0.2) * 5), thresholds each voltage at 3.0 V (below 3 V gives
bit 0, at or above gives bit 1), returns the sum of bit i times 2^i, which
is a deterministic integer in the range 0 to 7; and voltages 1.0, 4.0, 1.0
on channels 7, 8, 9 decode to state 2. -/
theorem c1_switch_state_decoding :
    (∀ a7 a8 a9 : ℕ, READ_SWITCH_STATE a7 a8 a9 =
        voltBit (adcToVoltage a7) * 2 ^ 0 + voltBit (adcToVoltage a8) * 2 ^ 1 +
          voltBit (adcToVoltage a9) * 2 ^ 2) ∧
    (∀ raw : ℕ, raw / 2 ^ 31 = 1 →
        adcToVoltage raw = 10 - (raw : ℚ) / 2 ^ 31 * 5) ∧
    (∀ raw : ℕ, ¬raw / 2 ^ 31 = 1 →
        adcToVoltage raw = (raw : ℚ) / (2 ^ 31 - 0.2) * 5) ∧
    (∀ v : ℚ, (v < 3 → voltBit v = 0) ∧ (3 ≤ v → voltBit v = 1)) ∧
    (∀ a7 a8 a9 : ℕ, READ_SWITCH_STATE a7 a8 a9 ≤ 7) ∧
    decodeSwitchVoltages 1 4 1 = 2 := by
  refine ⟨?_, ?_, ?_, ?_, ?_, ?_⟩
  · intro a7 a8 a9
    rw [READ_SWITCH_STATE_eq]
    rfl
  · intro raw h
    rw [adcToVoltage, if_pos h]
    norm_num
  · intro raw h
    rw [adcToVoltage, if_neg h]
    norm_num
  · intro v
    constructor
    · intro h
      rw [voltBit, if_pos h]
    · intro h
      rw [voltBit, if_neg (not_lt.mpr h)]
  · intro a7 a8 a9
    rw [READ_SWITCH_STATE_eq, decodeSwitchVoltages]
    have h7 := voltBit_le_one (adcToVoltage a7)
    have h8 := voltBit_le_one (adcToVoltage a8)
    have h9 := voltBit_le_one (adcToVoltage a9)
    omega
  · norm_num [decodeSwitchVoltages, voltBit]

/-- Witness for C1: the bipolar branch evaluated at the reading 2^31, the
range bound at concrete readings, and scenario B. -/
theorem c1_switch_state_decoding_witness :
    adcToVoltage (2 ^ 31) = 10 - ((2 ^ 31 : ℕ) : ℚ) / 2 ^ 31 * 5 ∧
    READ_SWITCH_STATE 0 (2 ^ 31) 0 ≤ 7 ∧
    decodeSwitchVoltages 1 4 1 = 2 :=
  ⟨c1_switch_state_decoding.2.1 (2 ^ 31) (by norm_num),
   c1_switch_state_decoding.2.2.2.2.1 0 (2 ^ 31) 0,
   c1_switch_state_decoding.2.2.2.2.2⟩

/-- C8 counterexample: in the reset branch (tracked frequency 848, not
below FREQ_MAX - FREQ_STEP), the emitted event sequence is falling reset
write, 2 ms sleep, 0.5 ms sleep, increment write, rising reset write. The
rising reset write is the last event of the call, so no settle wait and no
increment-line write follows any rising reset write: the claimed order
(falling-then-rising reset edge, then the settle wait, then the increment
edge) is impossible on this trace. -/
theorem c8_counterexample :
    ¬(848 : ℚ) < FREQ_MAX - FREQ_STEP ∧
    (INCREMENT_LO_FREQUENCY 848).2 =
      [GpioEvent.write GPIO_FREQ_RESET 0, GpioEvent.sleepUs 2000, GpioEvent.sleepUs 500,
       GpioEvent.write GPIO_FREQ_INCREMENT 1, GpioEvent.write GPIO_FREQ_RESET 1] ∧
    ((INCREMENT_LO_FREQUENCY 848).2).getLast? = some (GpioEvent.write GPIO_FREQ_RESET 1) ∧
    ¬∃ j m : ℕ, j < m ∧
      ((INCREMENT_LO_FREQUENCY 848).2)[j]? = some (GpioEvent.write GPIO_FREQ_RESET 1) ∧
      ((INCREMENT_LO_FREQUENCY 848).2)[m]? = some (GpioEvent.write GPIO_FREQ_INCREMENT 1) := by
  have hbr : ¬(848 : ℚ) < FREQ_MAX - FREQ_STEP := by
    rw [FREQ_MAX, FREQ_STEP]
    norm_num
  have htr : (INCREMENT_LO_FREQUENCY 848).2 =
      [GpioEvent.write GPIO_FREQ_RESET 0, GpioEvent.sleepUs 2000, GpioEvent.sleepUs 500,
       GpioEvent.write GPIO_FREQ_INCREMENT 1, GpioEvent.write GPIO_FREQ_RESET 1] := by
    rw [INCREMENT_LO_FREQUENCY, if_neg hbr]
  refine ⟨hbr, htr, by rw [htr]; rfl, ?_⟩
  rintro ⟨j, m, hjm, hj, hm⟩
  rw [htr] at hj hm
  have hj5 : j < 5 := by
    have h := (List.getElem?_eq_some_iff.mp hj).1
    simpa using h
  have hm5 : m < 5 := by
    have h := (List.getElem?_eq_some_iff.mp hm).1
    simpa using h
  have hj4 : j = 4 := by
    interval_cases j <;> simp_all [GPIO_FREQ_INCREMENT, GPIO_FREQ_RESET]
  omega

/-- C8 amended: when the frequency controller's advance operation is
called with tracked frequency not below FREQ_MAX - FREQ_STEP, it emits a
falling edge on the reset control line, waits the settle interval (2 ms
then 0.5 ms), then writes the increment control line high, and raises the
reset line back high only as the final operation of the call — the
falling-then-rising reset pulse encloses the settle wait and the increment
write — and it sets the tracked frequency to FREQ_MIN; in the other branch
it emits a falling-then-rising edge on the increment line and adds
FREQ_STEP to the tracked frequency. The indices i, k, k', m, j pin the
falling reset write, the two sleeps, the increment write and the rising
reset write in that order, with the rising reset write last. -/
theorem c8_increment_lo_frequency (f : ℚ) :
    (¬f < FREQ_MAX - FREQ_STEP →
      (INCREMENT_LO_FREQUENCY f).1 = FREQ_MIN ∧
      ∃ i k k' m j : ℕ, i < k ∧ k < k' ∧ k' < m ∧ m < j ∧
        j + 1 = ((INCREMENT_LO_FREQUENCY f).2).length ∧
        ((INCREMENT_LO_FREQUENCY f).2)[i]? = some (GpioEvent.write GPIO_FREQ_RESET 0) ∧
        ((INCREMENT_LO_FREQUENCY f).2)[k]? = some (GpioEvent.sleepUs 2000) ∧
        ((INCREMENT_LO_FREQUENCY f).2)[k']? = some (GpioEvent.sleepUs 500) ∧
        ((INCREMENT_LO_FREQUENCY f).2)[m]? = some (GpioEvent.write GPIO_FREQ_INCREMENT 1) ∧
        ((INCREMENT_LO_FREQUENCY f).2)[j]? = some (GpioEvent.write GPIO_FREQ_RESET 1)) ∧
    (f < FREQ_MAX - FREQ_STEP →
      (INCREMENT_LO_FREQUENCY f).1 = f + FREQ_STEP ∧
      ∃ i j : ℕ, i < j ∧
        ((INCREMENT_LO_FREQUENCY f).2)[i]? = some (GpioEvent.write GPIO_FREQ_INCREMENT 0) ∧
        ((INCREMENT_LO_FREQUENCY f).2)[j]? = some (GpioEvent.write GPIO_FREQ_INCREMENT 1)) := by
  constructor
  · intro h
    rw [INCREMENT_LO_FREQUENCY, if_neg h]
    exact ⟨rfl, 0, 1, 2, 3, 4, by norm_num, by norm_num, by norm_num, by norm_num, rfl,
      rfl, rfl, rfl, rfl, rfl⟩
  · intro h
    rw [INCREMENT_LO_FREQUENCY, if_pos h]
    exact ⟨rfl, 0, 2, by norm_num, rfl, rfl⟩

/-- Witness for the amended C8: both branches at concrete frequencies 848
and 650. -/
theorem c8_increment_lo_frequency_witness :
    ((INCREMENT_LO_FREQUENCY 848).1 = FREQ_MIN ∧
      ∃ i k k' m j : ℕ, i < k ∧ k < k' ∧ k' < m ∧ m < j ∧
        j + 1 = ((INCREMENT_LO_FREQUENCY 848).2).length ∧
        ((INCREMENT_LO_FREQUENCY 848).2)[i]? = some (GpioEvent.write GPIO_FREQ_RESET 0) ∧
        ((INCREMENT_LO_FREQUENCY 848).2)[k]? = some (GpioEvent.sleepUs 2000) ∧
        ((INCREMENT_LO_FREQUENCY 848).2)[k']? = some (GpioEvent.sleepUs 500) ∧
        ((INCREMENT_LO_FREQUENCY 848).2)[m]? = some (GpioEvent.write GPIO_FREQ_INCREMENT 1) ∧
        ((INCREMENT_LO_FREQUENCY 848).2)[j]? = some (GpioEvent.write GPIO_FREQ_RESET 1)) ∧
    ((INCREMENT_LO_FREQUENCY 650).1 = 650 + FREQ_STEP ∧
      ∃ i j : ℕ, i < j ∧
        ((INCREMENT_LO_FREQUENCY 650).2)[i]? = some (GpioEvent.write GPIO_FREQ_INCREMENT 0) ∧
        ((INCREMENT_LO_FREQUENCY 650).2)[j]? = some (GpioEvent.write GPIO_FREQ_INCREMENT 1)) :=
  ⟨(c8_increment_lo_frequency 848).1 (by norm_num [FREQ_MAX, FREQ_STEP]),
   (c8_increment_lo_frequency 650).2 (by norm_num [FREQ_MAX, FREQ_STEP])⟩

/-- C9: a process invocation with fewer than three positional arguments, or
with the row count, start frequency or end frequency parsing to a
non-positive integer, or with a failed buffer allocation, exits with code 1
without entering the acquisition loop; when all arguments are valid and all
startup steps succeed the loop is entered and the process exits with code
0. -/
theorem c9_exit_codes (argc : ℕ) (nrowsArg startFreqArg endFreqArg : Int)
    (allocAOk allocBOk adsOk gpioOk : Bool) (inputs : List IterInput) :
    (argc < 4 →
      programRun argc nrowsArg startFreqArg endFreqArg allocAOk allocBOk adsOk gpioOk inputs =
        ProgramResult.mk 1 false none) ∧
    (nrowsArg ≤ 0 →
      (programRun argc nrowsArg startFreqArg endFreqArg allocAOk allocBOk adsOk gpioOk
          inputs).exitCode = 1 ∧
      (programRun argc nrowsArg startFreqArg endFreqArg allocAOk allocBOk adsOk gpioOk
          inputs).loopEntered = false) ∧
    (startFreqArg ≤ 0 →
      (programRun argc nrowsArg startFreqArg endFreqArg allocAOk allocBOk adsOk gpioOk
          inputs).exitCode = 1 ∧
      (programRun argc nrowsArg startFreqArg endFreqArg allocAOk allocBOk adsOk gpioOk
          inputs).loopEntered = false) ∧
    (endFreqArg ≤ 0 →
      (programRun argc nrowsArg startFreqArg endFreqArg allocAOk allocBOk adsOk gpioOk
          inputs).exitCode = 1 ∧
      (programRun argc nrowsArg startFreqArg endFreqArg allocAOk allocBOk adsOk gpioOk
          inputs).loopEntered = false) ∧
    (allocAOk = false ∨ allocBOk = false →
      (programRun argc nrowsArg startFreqArg endFreqArg allocAOk allocBOk adsOk gpioOk
          inputs).exitCode = 1 ∧
      (programRun argc nrowsArg startFreqArg endFreqArg allocAOk allocBOk adsOk gpioOk
          inputs).loopEntered = false) ∧
    (4 ≤ argc → 0 < nrowsArg → 0 < startFreqArg → 0 < endFreqArg →
      allocAOk = true → allocBOk = true → adsOk = true → gpioOk = true →
      programRun argc nrowsArg startFreqArg endFreqArg allocAOk allocBOk adsOk gpioOk inputs =
        ProgramResult.mk 0 true (some (engineRun nrowsArg.toNat inputs))) := by
  refine ⟨?_, ?_, ?_, ?_, ?_, ?_⟩
  · intro h
    rw [programRun, if_pos h]
  · intro h
    unfold programRun
    split_ifs <;> simp_all
  · intro h
    unfold programRun
    split_ifs <;> simp_all
  · intro h
    unfold programRun
    split_ifs <;> simp_all
  · intro h
    unfold programRun
    split_ifs <;> simp_all
  · intro h1 h2 h3 h4 h5 h6 h7 h8
    unfold programRun
    rw [if_neg (by omega), if_neg (by omega), if_neg (by omega), if_neg (by omega),
      if_neg (by simp [h5, h6]), if_neg (by simp [h7]), if_neg (by simp [h8])]

/-- Witness for C9: a valid invocation exits 0 with the loop entered, and
an invocation with argc 3 exits 1 without entering the loop. -/
theorem c9_exit_codes_witness :
    programRun 4 2 650 850 true true true true [] =
      ProgramResult.mk 0 true (some (engineRun 2 [])) ∧
    programRun 3 2 650 850 true true true true [] = ProgramResult.mk 1 false none := by
  constructor
  · have h := (c9_exit_codes 4 2 650 850 true true true true []).2.2.2.2.2
    have h2 := h (by norm_num) (by norm_num) (by norm_num) (by norm_num) rfl rfl rfl rfl
    simpa using h2
  · exact (c9_exit_codes 3 2 650 850 true true true true []).1 (by norm_num)

/-- C10: two invocations with the same row count, the same environment
outcomes and the same per-iteration hardware readings, but any positive
start-frequency and end-frequency arguments, produce the same program
result: those two arguments are only checked for positivity and never used
afterwards (the sweep range and step are the compile-time constants). -/
theorem c10_freq_args_unused (argc : ℕ) (nrowsArg s1 e1 s2 e2 : Int)
    (allocAOk allocBOk adsOk gpioOk : Bool) (inputs : List IterInput)
    (hs1 : 0 < s1) (he1 : 0 < e1) (hs2 : 0 < s2) (he2 : 0 < e2) :
    programRun argc nrowsArg s1 e1 allocAOk allocBOk adsOk gpioOk inputs =
      programRun argc nrowsArg s2 e2 allocAOk allocBOk adsOk gpioOk inputs := by
  have h1 : ¬s1 ≤ 0 := by omega
  have h2 : ¬e1 ≤ 0 := by omega
  have h3 : ¬s2 ≤ 0 := by omega
  have h4 : ¬e2 ≤ 0 := by omega
  unfold programRun
  rw [if_neg h1, if_neg h2, if_neg h3, if_neg h4]

/-- Witness for C10: the run with frequency arguments 650 and 850 equals
the run with frequency arguments 7 and 9. -/
theorem c10_freq_args_unused_witness :
    programRun 4 2 650 850 true true true true [] =
      programRun 4 2 7 9 true true true true [] :=
  c10_freq_args_unused 4 2 650 850 7 9 true true true true []
    (by norm_num) (by norm_num) (by norm_num) (by norm_num)

/-! Projection lemmas for the engine-state operations. -/

@[simp] theorem writeActive_loFreq (s : EngineState) (r : Row) :
    (writeActive s r).loFreq = s.loFreq := by
  unfold writeActive
  split <;> rfl

@[simp] theorem writeActive_handed (s : EngineState) (r : Row) :
    (writeActive s r).handed = s.handed := by
  unfold writeActive
  split <;> rfl

@[simp] theorem writeActive_rowIndex (s : EngineState) (r : Row) :
    (writeActive s r).rowIndex = s.rowIndex := by
  unfold writeActive
  split <;> rfl

@[simp] theorem writeActive_currentBuffer (s : EngineState) (r : Row) :
    (writeActive s r).currentBuffer = s.currentBuffer := by
  unfold writeActive
  split <;> rfl

@[simp] theorem writeActive_exitFlag (s : EngineState) (r : Row) :
    (writeActive s r).exitFlag = s.exitFlag := by
  unfold writeActive
  split <;> rfl

@[simp] theorem writeActive_state2Sweeps (s : EngineState) (r : Row) :
    (writeActive s r).state2Sweeps = s.state2Sweeps := by
  unfold writeActive
  split <;> rfl

@[simp] theorem writeActive_bufferToWrite (s : EngineState) (r : Row) :
    (writeActive s r).bufferToWrite = s.bufferToWrite := by
  unfold writeActive
  split <;> rfl

@[simp] theorem writeActive_totalWrites (s : EngineState) (r : Row) :
    (writeActive s r).totalWrites = s.totalWrites + 1 := by
  unfold writeActive
  split <;> rfl

@[simp] theorem activeBuf_writeActive (s : EngineState) (r : Row) :
    activeBuf (writeActive s r) = (activeBuf s).set s.rowIndex (some r) := by
  by_cases h : s.currentBuffer = 1 <;> simp [writeActive, activeBuf, h]

@[simp] theorem writeActive_bufA_length (s : EngineState) (r : Row) :
    (writeActive s r).bufA.length = s.bufA.length := by
  unfold writeActive
  split <;> simp

@[simp] theorem writeActive_bufB_length (s : EngineState) (r : Row) :
    (writeActive s r).bufB.length = s.bufB.length := by
  unfold writeActive
  split <;> simp

/-- GET_DATA never touches the handoff history. -/
theorem getData_handed (nrows : ℕ) (s : EngineState) (inp : IterInput) :
    (getData nrows s inp).1.handed = s.handed := by
  unfold getData
  by_cases h1 : nrows ≤ s.rowIndex <;>
    by_cases h2 : READ_SWITCH_STATE inp.aux7 inp.aux8 inp.aux9 = 2 <;>
      by_cases h3 : STATE2_MAX_SWEEPS ≤ s.state2Sweeps + 1 <;>
        by_cases h4 : inp.timestampOk = false <;>
          simp [h1, h2, h3, h4]

/-- GET_DATA never touches the row index. -/
theorem getData_rowIndex (nrows : ℕ) (s : EngineState) (inp : IterInput) :
    (getData nrows s inp).1.rowIndex = s.rowIndex := by
  unfold getData
  by_cases h1 : nrows ≤ s.rowIndex <;>
    by_cases h2 : READ_SWITCH_STATE inp.aux7 inp.aux8 inp.aux9 = 2 <;>
      by_cases h3 : STATE2_MAX_SWEEPS ≤ s.state2Sweeps + 1 <;>
        by_cases h4 : inp.timestampOk = false <;>
          simp [h1, h2, h3, h4]

/-- Explicit form of GET_DATA on a transition-state iteration that reaches
the threshold: the exit flag is set, the counter resets, the sample is
written, the frequency advances, and the call returns 0. -/
theorem getData_state2_exit (nrows : ℕ) (s : EngineState) (inp : IterInput)
    (h1 : s.rowIndex < nrows)
    (hst : READ_SWITCH_STATE inp.aux7 inp.aux8 inp.aux9 = 2)
    (hc : STATE2_MAX_SWEEPS ≤ s.state2Sweeps + 1)
    (ht : inp.timestampOk = true) :
    getData nrows s inp =
      ({ writeActive { s with exitFlag := true, state2Sweeps := 0 }
          (Row.mk inp.adc inp.time 2 s.loFreq) with
          loFreq := incFreq s.loFreq }, 0) := by
  unfold getData
  rw [if_neg (Nat.not_le.mpr h1)]
  simp [hst, hc, ht, incFreq]

/-- Explicit form of GET_DATA on an iteration whose timestamp generation
fails: only the state-2 bookkeeping (which runs first) can change, the
buffers, row index, frequency and handoff history are untouched, and the
call returns -1. -/
theorem getData_badTime (nrows : ℕ) (s : EngineState) (inp : IterInput)
    (ht : inp.timestampOk = false) :
    (getData nrows s inp).2 = -1 ∧
    (getData nrows s inp).1.bufA = s.bufA ∧
    (getData nrows s inp).1.bufB = s.bufB ∧
    (getData nrows s inp).1.rowIndex = s.rowIndex ∧
    (getData nrows s inp).1.loFreq = s.loFreq ∧
    (getData nrows s inp).1.totalWrites = s.totalWrites ∧
    (getData nrows s inp).1.handed = s.handed := by
  unfold getData
  by_cases h1 : nrows ≤ s.rowIndex <;>
    by_cases h2 : READ_SWITCH_STATE inp.aux7 inp.aux8 inp.aux9 = 2 <;>
      by_cases h3 : STATE2_MAX_SWEEPS ≤ s.state2Sweeps + 1 <;>
        simp [h1, h2, h3, ht]

/-- An iteration on which GET_DATA reports failure or the exit flag is set
breaks the loop at once: no handoff happens and the row index does not
advance. -/
theorem mainStep_break (nrows : ℕ) (s : EngineState) (inp : IterInput)
    (h : (mainStep nrows s inp).2 = true) :
    (mainStep nrows s inp).1.handed = s.handed ∧
    (mainStep nrows s inp).1.rowIndex = s.rowIndex := by
  unfold mainStep at *
  by_cases hs : inp.sigint <;>
    simp only [hs, if_true, if_false, Bool.false_eq_true, reduceIte] at * <;>
    split_ifs at * with h1 h2 <;>
    simp_all [getData_handed, getData_rowIndex]

/-- Iteration input whose auxiliary readings decode to switch state 0, with
a successful timestamp and no signal. -/
def inputState0 (a t : ℕ) : IterInput := IterInput.mk 0 0 0 a t true false

/-- Iteration input whose auxiliary readings decode to switch state 2:
channel 8 reads 2^31 (5 V after conversion), channels 7 and 9 read 0. -/
def inputState2 (a t : ℕ) : IterInput := IterInput.mk 0 2147483648 0 a t true false

/-- Iteration input on which GET_TIME fails. -/
def inputBadTime : IterInput := IterInput.mk 0 0 0 0 0 false false

/-- Variant of readState2 with the sign-bit reading written as a plain
numeral, as it appears after numeral normalization. -/
theorem readState2' : READ_SWITCH_STATE 0 2147483648 0 = 2 := by
  have h : (2147483648 : ℕ) = 2 ^ 31 := by norm_num
  rw [h]
  exact readState2

/-- A successful GET_DATA call stamps the active row with the frequency
tracked at call entry and only then advances the tracked frequency. -/
theorem getData_stamps_loFreq (nrows : ℕ) (s : EngineState) (inp : IterInput)
    (h1 : s.rowIndex < nrows) (ht : inp.timestampOk = true)
    (hlen : s.rowIndex < (activeBuf s).length) :
    ((activeBuf (getData nrows s inp).1)[s.rowIndex]?).map (Option.map Row.freq) =
      some (some s.loFreq) ∧
    (getData nrows s inp).1.loFreq = incFreq s.loFreq := by
  unfold getData
  by_cases h2 : READ_SWITCH_STATE inp.aux7 inp.aux8 inp.aux9 = 2 <;>
    by_cases h3 : STATE2_MAX_SWEEPS ≤ s.state2Sweeps + 1 <;>
      simp [Nat.not_le.mpr h1, h2, h3, ht, incFreq, activeBuf, writeActive] <;>
        split_ifs <;>
          simp_all [List.getElem?_set_self, activeBuf]

/-- C2 counterexample: the sweep wraps one step early. Row 99 is stamped
with 848 MHz, which is at least FREQ_MAX - FREQ_STEP, so the next stamped
value (row 100) wraps to 650 MHz; it is not the 850 MHz the claimed
enumeration 650.0, 652.0, ..., 850.0 requires, and 850 MHz is never
emitted. -/
theorem c2_counterexample :
    freqAt 99 = 848 ∧ freqAt 100 = 650 ∧ ¬freqAt 100 = 850 := by
  refine ⟨freqAt_99, freqAt_100, ?_⟩
  rw [freqAt_100]
  norm_num

/-- C2 amended: for a sweep of 101 rows the stamped frequencies are 650.0,
652.0, ..., 848.0 on rows 0 through 99 — strictly increasing by FREQ_STEP
from FREQ_MIN until reaching 848 = FREQ_MAX - FREQ_STEP at row 99 — and the
next emitted value (row 100) wraps to FREQ_MIN; each row is stamped with
the tracked frequency at iteration entry, advanced only afterwards. -/
theorem c2_frequency_sequence :
    (∀ k : ℕ, k ≤ 99 → freqAt k = 650 + 2 * (k : ℚ)) ∧
    freqAt 99 = FREQ_MAX - FREQ_STEP ∧
    freqAt 100 = FREQ_MIN ∧
    (∀ f : ℚ, f < FREQ_MAX - FREQ_STEP → incFreq f = f + FREQ_STEP) ∧
    (∀ f : ℚ, ¬f < FREQ_MAX - FREQ_STEP → incFreq f = FREQ_MIN) ∧
    (∀ (nrows : ℕ) (s : EngineState) (inp : IterInput),
      s.rowIndex < nrows → inp.timestampOk = true →
      s.rowIndex < (activeBuf s).length →
      ((activeBuf (getData nrows s inp).1)[s.rowIndex]?).map (Option.map Row.freq) =
        some (some s.loFreq) ∧
      (getData nrows s inp).1.loFreq = incFreq s.loFreq) := by
  refine ⟨freqAt_closed, ?_, freqAt_100, ?_, ?_, getData_stamps_loFreq⟩
  · rw [freqAt_99, FREQ_MAX, FREQ_STEP]
    norm_num
  · intro f h
    rw [incFreq, INCREMENT_LO_FREQUENCY, if_pos h]
  · intro f h
    rw [incFreq, INCREMENT_LO_FREQUENCY, if_neg h]

/-- Witness for the amended C2: the closed form at row 42, both advance
branches at 650 and 848, and the stamping fact on a fresh one-row buffer. -/
theorem c2_frequency_sequence_witness :
    freqAt 42 = 650 + 2 * ((42 : ℕ) : ℚ) ∧
    incFreq 650 = 650 + FREQ_STEP ∧
    incFreq 848 = FREQ_MIN ∧
    (((activeBuf (getData 1 (initState 1) (inputState0 0 0)).1)[(initState 1).rowIndex]?).map
        (Option.map Row.freq) = some (some (initState 1).loFreq) ∧
      (getData 1 (initState 1) (inputState0 0 0)).1.loFreq = incFreq (initState 1).loFreq) :=
  ⟨c2_frequency_sequence.1 42 (by norm_num),
   c2_frequency_sequence.2.2.2.1 650 (by rw [FREQ_MAX, FREQ_STEP]; norm_num),
   c2_frequency_sequence.2.2.2.2.1 848 (by rw [FREQ_MAX, FREQ_STEP]; norm_num),
   c2_frequency_sequence.2.2.2.2.2 1 (initState 1) (inputState0 0 0)
     (by simp [initState]) (by simp [inputState0]) (by simp [initState, activeBuf])⟩

/-- C3 counterexample: with 2 rows per buffer and three consecutive
state-2 iterations, the third iteration reaches the threshold, sets the
exit flag and stores its sample (payload 30) into the active buffer
(bufferB, row 0), but the loop breaks before the handoff check, so the
only buffer ever handed to the writer is the first one, holding payloads
10 and 20: the transition iteration's sample is in no handed buffer and
therefore in no file. -/
theorem c3_counterexample :
    (engineRun 2 [inputState2 10 1, inputState2 20 2, inputState2 30 3]).exitFlag = true ∧
    (engineRun 2 [inputState2 10 1, inputState2 20 2, inputState2 30 3]).handed.map
        (fun b => b.map (fun r => r.map Row.adc)) = [[some 10, some 20]] ∧
    (engineRun 2 [inputState2 10 1, inputState2 20 2, inputState2 30 3]).bufB.map
        (fun r => r.map Row.adc) = [some 30, none] ∧
    (engineRun 2 [inputState2 10 1, inputState2 20 2, inputState2 30 3]).totalWrites = 3 := by
  simp [engineRun, runLoop, mainStep, getData, writeActive, initState, activeBuf,
    inputState2, readState2', STATE2_MAX_SWEEPS, List.set]

/-- C3 amended: on the iteration at which the transition-state counter
reaches its threshold, the engine sets the exit flag, resets the counter,
and still completes the ADC read, metadata stamp and frequency advance, so
the iteration's sample is stored in the active in-memory buffer; but the
main loop observes the exit flag and breaks before the handoff check, so
that buffer is never marked pending and the sample never reaches a file. -/
theorem c3_transition_iteration (nrows : ℕ) (s : EngineState) (inp : IterInput)
    (h1 : s.rowIndex < nrows)
    (hst : READ_SWITCH_STATE inp.aux7 inp.aux8 inp.aux9 = 2)
    (hc : STATE2_MAX_SWEEPS ≤ s.state2Sweeps + 1)
    (ht : inp.timestampOk = true)
    (hsig : inp.sigint = false)
    (hlen : s.rowIndex < (activeBuf s).length) :
    (getData nrows s inp).2 = 0 ∧
    (getData nrows s inp).1.exitFlag = true ∧
    (getData nrows s inp).1.state2Sweeps = 0 ∧
    (activeBuf (getData nrows s inp).1)[s.rowIndex]? =
      some (some (Row.mk inp.adc inp.time 2 s.loFreq)) ∧
    (getData nrows s inp).1.loFreq = incFreq s.loFreq ∧
    (mainStep nrows s inp).2 = true ∧
    (mainStep nrows s inp).1.handed = s.handed := by
  have hgd := getData_state2_exit nrows s inp h1 hst hc ht
  have hms : mainStep nrows s inp = ((getData nrows s inp).1, true) := by
    unfold mainStep
    simp [hsig, hgd]
  refine ⟨by simp [hgd], by simp [hgd], by simp [hgd], ?_, by simp [hgd],
    by rw [hms], by rw [hms, getData_handed]⟩
  rw [hgd]
  have hab : activeBuf
      ({ writeActive { s with exitFlag := true, state2Sweeps := 0 }
          (Row.mk inp.adc inp.time 2 s.loFreq) with loFreq := incFreq s.loFreq }) =
      (activeBuf s).set s.rowIndex (some (Row.mk inp.adc inp.time 2 s.loFreq)) := by
    by_cases hcb : s.currentBuffer = 1 <;> simp [activeBuf, writeActive, hcb]
  rw [hab]
  exact List.getElem?_set_self hlen

/-- Witness for the amended C3: the transition iteration on a one-row
buffer with the counter one short of the threshold. -/
theorem c3_transition_iteration_witness :
    (getData 1 { initState 1 with state2Sweeps := 2 } (inputState2 7 8)).2 = 0 ∧
    (getData 1 { initState 1 with state2Sweeps := 2 } (inputState2 7 8)).1.exitFlag = true ∧
    (getData 1 { initState 1 with state2Sweeps := 2 } (inputState2 7 8)).1.state2Sweeps = 0 ∧
    (activeBuf (getData 1 { initState 1 with state2Sweeps := 2 }
        (inputState2 7 8)).1)[({ initState 1 with state2Sweeps := 2 } :
          EngineState).rowIndex]? =
      some (some (Row.mk (inputState2 7 8).adc (inputState2 7 8).time 2
        ({ initState 1 with state2Sweeps := 2 } : EngineState).loFreq)) ∧
    (getData 1 { initState 1 with state2Sweeps := 2 } (inputState2 7 8)).1.loFreq =
      incFreq ({ initState 1 with state2Sweeps := 2 } : EngineState).loFreq ∧
    (mainStep 1 { initState 1 with state2Sweeps := 2 } (inputState2 7 8)).2 = true ∧
    (mainStep 1 { initState 1 with state2Sweeps := 2 } (inputState2 7 8)).1.handed =
      ({ initState 1 with state2Sweeps := 2 } : EngineState).handed :=
  c3_transition_iteration 1 { initState 1 with state2Sweeps := 2 } (inputState2 7 8)
    (by simp [initState]) (by simp [inputState2, readState2'])
    (by simp [initState, STATE2_MAX_SWEEPS])
    (by simp [inputState2]) (by simp [inputState2]) (by simp [initState, activeBuf])

/-- C4 counterexample: with 3 rows per buffer and inputs good, bad
timestamp, good, the run stops at the second iteration: the result equals
the run that never receives the third input, only one row was ever
written, and the loop ended with no exit flag set — the loop does not
continue to the next iteration as claimed. -/
theorem c4_counterexample :
    engineRun 3 [inputState0 10 1, inputBadTime, inputState0 30 3] =
      engineRun 3 [inputState0 10 1, inputBadTime] ∧
    (engineRun 3 [inputState0 10 1, inputBadTime, inputState0 30 3]).totalWrites = 1 ∧
    (engineRun 3 [inputState0 10 1, inputBadTime, inputState0 30 3]).rowIndex = 1 ∧
    (engineRun 3 [inputState0 10 1, inputBadTime, inputState0 30 3]).exitFlag = false ∧
    (engineRun 3 [inputState0 10 1, inputBadTime, inputState0 30 3]).handed = [] := by
  simp [engineRun, runLoop, mainStep, getData, writeActive, initState, activeBuf,
    inputState0, inputBadTime, readState0, STATE2_MAX_SWEEPS, List.set]

/-- C4 amended: if timestamp generation fails during an iteration, that
iteration's sample is abandoned (buffers, row index, frequency and write
count unchanged) and GET_DATA returns -1, which makes the main loop break:
the acquisition run terminates instead of continuing to the next
iteration. -/
theorem c4_timestamp_failure_aborts (nrows : ℕ) (s : EngineState) (inp : IterInput)
    (rest : List IterInput)
    (ht : inp.timestampOk = false) (hsig : inp.sigint = false)
    (hex : s.exitFlag = false) :
    (getData nrows s inp).2 = -1 ∧
    (getData nrows s inp).1.bufA = s.bufA ∧
    (getData nrows s inp).1.bufB = s.bufB ∧
    (getData nrows s inp).1.rowIndex = s.rowIndex ∧
    (getData nrows s inp).1.totalWrites = s.totalWrites ∧
    (mainStep nrows s inp).2 = true ∧
    (mainStep nrows s inp).1.handed = s.handed ∧
    (mainStep nrows s inp).1.rowIndex = s.rowIndex ∧
    runLoop nrows s (inp :: rest) = (mainStep nrows s inp).1 := by
  obtain ⟨hr, hbA, hbB, hri, hlo, htw, hh⟩ := getData_badTime nrows s inp ht
  have hms : mainStep nrows s inp = ((getData nrows s inp).1, true) := by
    unfold mainStep
    simp [hsig, hr]
  refine ⟨hr, hbA, hbB, hri, htw, by rw [hms], by rw [hms]; exact hh,
    by rw [hms]; exact hri, ?_⟩
  rw [runLoop, if_neg (by simp [hex]), hms]
  simp

/-- Witness for the amended C4: a failing-timestamp iteration from the
initial two-row state. -/
theorem c4_timestamp_failure_aborts_witness :
    (getData 2 (initState 2) inputBadTime).2 = -1 ∧
    (getData 2 (initState 2) inputBadTime).1.bufA = (initState 2).bufA ∧
    (getData 2 (initState 2) inputBadTime).1.bufB = (initState 2).bufB ∧
    (getData 2 (initState 2) inputBadTime).1.rowIndex = (initState 2).rowIndex ∧
    (getData 2 (initState 2) inputBadTime).1.totalWrites = (initState 2).totalWrites ∧
    (mainStep 2 (initState 2) inputBadTime).2 = true ∧
    (mainStep 2 (initState 2) inputBadTime).1.handed = (initState 2).handed ∧
    (mainStep 2 (initState 2) inputBadTime).1.rowIndex = (initState 2).rowIndex ∧
    runLoop 2 (initState 2) (inputBadTime :: [inputState0 1 1]) =
      (mainStep 2 (initState 2) inputBadTime).1 :=
  c4_timestamp_failure_aborts 2 (initState 2) inputBadTime [inputState0 1 1]
    (by simp [inputBadTime]) (by simp [inputBadTime]) (by simp [initState])

/-- C5 counterexample: the writer thread woken with the exit flag set while
buffer 1 is pending terminates without writing the pending buffer, instead
of taking ownership and writing it as the claim states. -/
theorem c5_counterexample :
    writerWake (WriterShared.mk 1 true [none] [none]) =
      (WriterShared.mk 1 true [none] [none], WriterOutcome.terminated) ∧
    WriterOutcome.terminated ≠ WriterOutcome.wrote [none] := by
  constructor
  · simp [writerWake]
  · simp

/-- C5 amended: the sink thread can only proceed when a buffer is pending
or the exit flag is set; if woken with the exit flag set it terminates
regardless of whether a buffer is pending; only with the exit flag clear
does it take ownership of the pending buffer (clearing the marker) and
write it before returning to waiting. -/
theorem c5_writer_wake (sh : WriterShared) :
    (sh.exitFlag = true → writerWake sh = (sh, WriterOutcome.terminated)) ∧
    (sh.exitFlag = false → sh.bufferToWrite = 1 →
      writerWake sh = (WriterShared.mk 0 sh.exitFlag sh.bufA sh.bufB,
        WriterOutcome.wrote sh.bufA)) ∧
    (sh.exitFlag = false → sh.bufferToWrite = 2 →
      writerWake sh = (WriterShared.mk 0 sh.exitFlag sh.bufA sh.bufB,
        WriterOutcome.wrote sh.bufB)) ∧
    (sh.bufferToWrite = 0 → sh.exitFlag = false → ¬writerCanProceed sh) := by
  refine ⟨?_, ?_, ?_, ?_⟩
  · intro h
    simp [writerWake, h]
  · intro h hb
    simp [writerWake, h, hb]
  · intro h hb
    simp [writerWake, h, hb]
  · intro hb h
    simp [writerCanProceed, hb, h]

/-- Witness for the amended C5: all four cases at concrete shared states. -/
theorem c5_writer_wake_witness :
    writerWake (WriterShared.mk 0 true [] []) =
      (WriterShared.mk 0 true [] [], WriterOutcome.terminated) ∧
    writerWake (WriterShared.mk 1 false [none] []) =
      (WriterShared.mk 0 false [none] [], WriterOutcome.wrote [none]) ∧
    writerWake (WriterShared.mk 2 false [] [none]) =
      (WriterShared.mk 0 false [] [none], WriterOutcome.wrote [none]) ∧
    ¬writerCanProceed (WriterShared.mk 0 false [] []) :=
  ⟨(c5_writer_wake (WriterShared.mk 0 true [] [])).1 rfl,
   (c5_writer_wake (WriterShared.mk 1 false [none] [])).2.1 rfl rfl,
   (c5_writer_wake (WriterShared.mk 2 false [] [none])).2.2.1 rfl rfl,
   (c5_writer_wake (WriterShared.mk 0 false [] [])).2.2.2 rfl rfl⟩

/-- Predicate taken from the claim's wording, for stating its refutation:
some window of three consecutive entries of the list all equal v. -/
def hasThreeConsecutive (v : ℕ) : List ℕ → Bool
  | a :: b :: c :: rest =>
    (a == v && b == v && c == v) || hasThreeConsecutive v (b :: c :: rest)
  | _ => false

/-- Input schedule alternating transition-state and state-0 decodes. -/
def c7inputs : List IterInput :=
  [inputState2 1 1, inputState0 2 2, inputState2 3 3, inputState0 4 4, inputState2 5 5]

/-- C7 counterexample: over the decoded state sequence 2, 0, 2, 0, 2 —
which never holds the transition state on three consecutive iterations —
the engine still sets the exit flag on the fifth iteration, because the
counter is never reset on a non-transition decode and so accumulates to
the threshold. -/
theorem c7_counterexample :
    (engineRun 10 c7inputs).exitFlag = true ∧
    c7inputs.map (fun inp => READ_SWITCH_STATE inp.aux7 inp.aux8 inp.aux9) =
      [2, 0, 2, 0, 2] ∧
    hasThreeConsecutive 2
      (c7inputs.map (fun inp => READ_SWITCH_STATE inp.aux7 inp.aux8 inp.aux9)) = false := by
  have hmap : c7inputs.map (fun inp => READ_SWITCH_STATE inp.aux7 inp.aux8 inp.aux9) =
      [2, 0, 2, 0, 2] := by
    simp [c7inputs, inputState2, inputState0, readState2', readState0]
  refine ⟨?_, hmap, ?_⟩
  · simp [engineRun, runLoop, mainStep, getData, writeActive, initState, activeBuf,
      c7inputs, inputState2, inputState0, readState2', readState0, STATE2_MAX_SWEEPS,
      List.set]
  · rw [hmap]
    rfl

/-- C7 amended: the transition-state counter accumulates every
transition-state decode since it was last reset and is left unchanged (not
reset) by iterations decoding a different state; the exit flag is set as
soon as the accumulated count reaches the threshold, which can happen
without the transition state having been decoded on that many consecutive
iterations. -/
theorem c7_cumulative_counter (nrows : ℕ) (s : EngineState) (inp : IterInput)
    (h1 : s.rowIndex < nrows) :
    (READ_SWITCH_STATE inp.aux7 inp.aux8 inp.aux9 ≠ 2 →
      (getData nrows s inp).1.state2Sweeps = s.state2Sweeps ∧
      (getData nrows s inp).1.exitFlag = s.exitFlag) ∧
    (READ_SWITCH_STATE inp.aux7 inp.aux8 inp.aux9 = 2 →
      (s.state2Sweeps + 1 < STATE2_MAX_SWEEPS →
        (getData nrows s inp).1.state2Sweeps = s.state2Sweeps + 1 ∧
        (getData nrows s inp).1.exitFlag = s.exitFlag) ∧
      (STATE2_MAX_SWEEPS ≤ s.state2Sweeps + 1 →
        (getData nrows s inp).1.exitFlag = true ∧
        (getData nrows s inp).1.state2Sweeps = 0)) := by
  unfold getData
  refine ⟨?_, ?_⟩
  · intro hst
    by_cases h4 : inp.timestampOk = false <;>
      simp [Nat.not_le.mpr h1, hst, h4]
  · intro hst
    constructor
    · intro hc
      by_cases h4 : inp.timestampOk = false <;>
        simp [Nat.not_le.mpr h1, hst, Nat.not_le.mpr hc, h4]
    · intro hc
      by_cases h4 : inp.timestampOk = false <;>
        simp [Nat.not_le.mpr h1, hst, hc, h4]

/-- Witness for the amended C7: a state-0 decode leaves the fresh counter
untouched, and a state-2 decode increments it without setting the exit
flag while below the threshold. -/
theorem c7_cumulative_counter_witness :
    ((getData 3 (initState 3) (inputState0 0 0)).1.state2Sweeps =
        (initState 3).state2Sweeps ∧
      (getData 3 (initState 3) (inputState0 0 0)).1.exitFlag = (initState 3).exitFlag) ∧
    ((getData 3 (initState 3) (inputState2 0 0)).1.state2Sweeps =
        (initState 3).state2Sweeps + 1 ∧
      (getData 3 (initState 3) (inputState2 0 0)).1.exitFlag = (initState 3).exitFlag) :=
  ⟨(c7_cumulative_counter 3 (initState 3) (inputState0 0 0) (by simp [initState])).1
      (by simp [inputState0, readState0]),
   ((c7_cumulative_counter 3 (initState 3) (inputState2 0 0) (by simp [initState])).2
      (by simp [inputState2, readState2'])).1
      (by simp [initState, STATE2_MAX_SWEEPS])⟩

/-- Characterization of a successful GET_DATA call: it can only succeed
when the row index is in bounds, and the resulting state is a write of the
sampled row into the active buffer at the row index (of some intermediate
state differing from the input state only in the state-2 bookkeeping)
followed by the frequency advance. -/
theorem getData_success (nrows : ℕ) (s : EngineState) (inp : IterInput)
    (h : (getData nrows s inp).2 = 0) :
    s.rowIndex < nrows ∧
    ∃ s1 : EngineState,
      s1.rowIndex = s.rowIndex ∧ s1.currentBuffer = s.currentBuffer ∧
      s1.bufA = s.bufA ∧ s1.bufB = s.bufB ∧ s1.handed = s.handed ∧
      (getData nrows s inp).1 =
        { writeActive s1 (Row.mk inp.adc inp.time
            (READ_SWITCH_STATE inp.aux7 inp.aux8 inp.aux9) s1.loFreq) with
          loFreq := incFreq s1.loFreq } := by
  unfold getData at h ⊢
  by_cases h1 : nrows ≤ s.rowIndex
  · rw [if_pos h1] at h
    exact absurd h (by norm_num)
  · rw [if_neg h1] at h ⊢
    by_cases h4 : inp.timestampOk = false
    · by_cases h2 : READ_SWITCH_STATE inp.aux7 inp.aux8 inp.aux9 = 2 <;>
        by_cases h3 : STATE2_MAX_SWEEPS ≤ s.state2Sweeps + 1 <;>
          simp [h2, h3, h4] at h
    · refine ⟨Nat.lt_of_not_le h1, ?_⟩
      by_cases h2 : READ_SWITCH_STATE inp.aux7 inp.aux8 inp.aux9 = 2
      · by_cases h3 : STATE2_MAX_SWEEPS ≤ s.state2Sweeps + 1
        · exact ⟨{ s with exitFlag := true, state2Sweeps := 0 }, rfl, rfl, rfl, rfl, rfl,
            by simp [h2, h3, h4, incFreq]⟩
        · exact ⟨{ s with state2Sweeps := s.state2Sweeps + 1 }, rfl, rfl, rfl, rfl, rfl,
            by simp [h2, h3, h4, incFreq]⟩
      · exact ⟨s, rfl, rfl, rfl, rfl, rfl, by simp [h2, h4, incFreq]⟩

/-- A buffer holding one whole sweep: nrows rows, all populated. -/
def bufFull (nrows : ℕ) (b : List (Option Row)) : Prop :=
  b.length = nrows ∧ ∀ r ∈ b, r.isSome

/-- Loop-head invariant of the acquisition loop: the row index is within
the buffer, both buffers have the allocated length, every slot of the
active buffer below the row index has been populated, and every buffer
snapshot handed to the writer was a whole sweep. -/
def EngineInv (nrows : ℕ) (s : EngineState) : Prop :=
  s.rowIndex < nrows ∧
  s.bufA.length = nrows ∧
  s.bufB.length = nrows ∧
  (∀ j, j < s.rowIndex → ∃ r, (activeBuf s)[j]? = some (some r)) ∧
  (∀ b ∈ s.handed, bufFull nrows b)

/-- Congruence for the active buffer. -/
theorem activeBuf_congr {s t : EngineState} (hc : s.currentBuffer = t.currentBuffer)
    (ha : s.bufA = t.bufA) (hb : s.bufB = t.bufB) : activeBuf s = activeBuf t := by
  unfold activeBuf
  rw [hc, ha, hb]

/-- Updating the row index leaves the active buffer unchanged. -/
@[simp] theorem activeBuf_update_rowIndex (x : EngineState) (e : ℕ) :
    activeBuf { x with rowIndex := e } = activeBuf x := rfl

/-- Updating the tracked frequency leaves the active buffer unchanged. -/
@[simp] theorem activeBuf_update_loFreq (x : EngineState) (v : ℚ) :
    activeBuf { x with loFreq := v } = activeBuf x := rfl

/-- The active buffer inherits the allocated length. -/
theorem activeBuf_length {nrows : ℕ} {s : EngineState}
    (ha : s.bufA.length = nrows) (hb : s.bufB.length = nrows) :
    (activeBuf s).length = nrows := by
  unfold activeBuf
  split <;> assumption

/-- The initial state satisfies the loop-head invariant. -/
theorem initState_inv (nrows : ℕ) (h : 0 < nrows) : EngineInv nrows (initState nrows) := by
  refine ⟨h, by simp [initState], by simp [initState], ?_, ?_⟩
  · intro j hj
    simp [initState] at hj
  · intro b hb
    simp [initState] at hb

/-- The loop-head invariant is preserved by an iteration that does not
break. -/
theorem mainStep_inv (nrows : ℕ) (s : EngineState) (inp : IterInput)
    (hinv : EngineInv nrows s) (hbrk : (mainStep nrows s inp).2 = false) :
    EngineInv nrows (mainStep nrows s inp).1 := by
  obtain ⟨hri, hlenA, hlenB, hfill, hhand⟩ := hinv
  unfold mainStep at hbrk ⊢
  set s0 := if inp.sigint then { s with exitFlag := true } else s with hs0
  have hs0ri : s0.rowIndex = s.rowIndex := by rw [hs0]; split <;> rfl
  have hs0cb : s0.currentBuffer = s.currentBuffer := by rw [hs0]; split <;> rfl
  have hs0bA : s0.bufA = s.bufA := by rw [hs0]; split <;> rfl
  have hs0bB : s0.bufB = s.bufB := by rw [hs0]; split <;> rfl
  have hs0h : s0.handed = s.handed := by rw [hs0]; split <;> rfl
  by_cases hres : (getData nrows s0 inp).2 = 0
  · by_cases hex : (getData nrows s0 inp).1.exitFlag = true
    · rw [if_pos (Or.inr hex)] at hbrk
      exact absurd hbrk (by norm_num)
    · rw [if_neg (by simp [hres, hex])] at hbrk ⊢
      obtain ⟨hlt, s1, h1ri, h1cb, h1bA, h1bB, h1h, hgd⟩ := getData_success nrows s0 inp hres
      set row := Row.mk inp.adc inp.time (READ_SWITCH_STATE inp.aux7 inp.aux8 inp.aux9)
        s1.loFreq with hrow
      have hact1 : activeBuf s1 = activeBuf s :=
        activeBuf_congr (by rw [h1cb, hs0cb]) (by rw [h1bA, hs0bA]) (by rw [h1bB, hs0bB])
      have hgdri : (getData nrows s0 inp).1.rowIndex = s.rowIndex := by
        rw [hgd]
        simp [h1ri, hs0ri]
      have hgdcb : (getData nrows s0 inp).1.currentBuffer = s.currentBuffer := by
        rw [hgd]
        simp [h1cb, hs0cb]
      have hgdh : (getData nrows s0 inp).1.handed = s.handed := by
        rw [hgd]
        simp [h1h, hs0h]
      have hgdlenA : (getData nrows s0 inp).1.bufA.length = nrows := by
        rw [hgd]
        simp [h1bA, hs0bA, hlenA]
      have hgdlenB : (getData nrows s0 inp).1.bufB.length = nrows := by
        rw [hgd]
        simp [h1bB, hs0bB, hlenB]
      have hactlen : (activeBuf s).length = nrows := activeBuf_length hlenA hlenB
      have hgdact : activeBuf (getData nrows s0 inp).1 =
          (activeBuf s).set s.rowIndex (some row) := by
        rw [hgd]
        have h1 : activeBuf ({ writeActive s1 row with loFreq := incFreq s1.loFreq }) =
            activeBuf (writeActive s1 row) :=
          activeBuf_congr rfl rfl rfl
        rw [h1, activeBuf_writeActive, hact1, h1ri, hs0ri]
      have hslt : s.rowIndex < nrows := by
        rw [hs0ri] at hlt
        exact hlt
      have hfill' : ∀ j, j < s.rowIndex + 1 →
          ∃ r, (activeBuf (getData nrows s0 inp).1)[j]? = some (some r) := by
        intro j hj
        rw [hgdact]
        by_cases hje : s.rowIndex = j
        · subst hje
          exact ⟨row, List.getElem?_set_self (by rw [hactlen]; exact hslt)⟩
        · obtain ⟨r, hr⟩ := hfill j (by omega)
          exact ⟨r, by rw [List.getElem?_set_ne hje]; exact hr⟩
      by_cases hfullrow : nrows ≤ s.rowIndex + 1
      · rw [if_pos (by simp [hgdri]; omega)]
        have heq : s.rowIndex + 1 = nrows := by omega
        refine ⟨by simp; omega, by simpa using hgdlenA, by simpa using hgdlenB, ?_, ?_⟩
        · intro j hj
          simp at hj
        · intro b hb
          simp only [activeBuf_update_rowIndex] at hb
          simp [hgdh] at hb
          rcases hb with hb | hb
          · exact hhand b hb
          · subst hb
            constructor
            · rw [hgdact]
              simp [hactlen]
            · intro x hx
              rw [hgdact] at hx
              obtain ⟨i, hi⟩ := List.mem_iff_getElem?.mp hx
              have hilen : i < ((activeBuf s).set s.rowIndex (some row)).length :=
                (List.getElem?_eq_some_iff.mp hi).1
              have hilen' : i < nrows := by simpa [hactlen] using hilen
              obtain ⟨r, hr⟩ := hfill' i (by omega)
              rw [hgdact, hi] at hr
              injection hr with hr'
              rw [hr']
              rfl
      · rw [if_neg (by simp [hgdri]; omega)]
        refine ⟨by simp [hgdri]; omega, by simpa using hgdlenA, by simpa using hgdlenB,
          ?_, ?_⟩
        · intro j hj
          simp only [activeBuf_update_rowIndex]
          apply hfill' j
          simpa [hgdri] using hj
        · intro b hb
          simp [hgdh] at hb
          exact hhand b hb
  · rw [if_pos (Or.inl hres)] at hbrk
    exact absurd hbrk (by norm_num)

/-- Every buffer snapshot handed off during a run that starts in a state
satisfying the loop-head invariant is a whole sweep. -/
theorem runLoop_handed_full (nrows : ℕ) (inputs : List IterInput) :
    ∀ s : EngineState, EngineInv nrows s →
      ∀ b ∈ (runLoop nrows s inputs).handed, bufFull nrows b := by
  induction inputs with
  | nil =>
    intro s hinv
    exact hinv.2.2.2.2
  | cons inp rest ih =>
    intro s hinv
    by_cases hex : s.exitFlag = true
    · rw [runLoop, if_pos hex]
      exact hinv.2.2.2.2
    · rw [runLoop, if_neg hex]
      by_cases hbrk : (mainStep nrows s inp).2 = true
      · simp only [hbrk, if_true]
        rw [(mainStep_break nrows s inp hbrk).1]
        exact hinv.2.2.2.2
      · have hb2 : (mainStep nrows s inp).2 = false := by
          simpa using hbrk
        simp only [hb2, Bool.false_eq_true, if_false]
        exact ih (mainStep nrows s inp).1 (mainStep_inv nrows s inp hinv hb2)

/-- C6: for any positive row count and any input schedule, every buffer
snapshot handed to the sink during the run holds exactly nrows rows, all
populated — the pending marker is set only after the fill loop completes —
and any iteration on which the loop breaks (exit flag observed or error)
hands nothing off, so a partially filled active buffer is discarded and
files contain only whole sweeps. -/
theorem c6_whole_buffer_handoff (nrows : ℕ) (inputs : List IterInput) (h : 0 < nrows) :
    (∀ b ∈ (engineRun nrows inputs).handed, b.length = nrows ∧ ∀ r ∈ b, r.isSome) ∧
    (∀ (s : EngineState) (inp : IterInput), (mainStep nrows s inp).2 = true →
      (mainStep nrows s inp).1.handed = s.handed) := by
  constructor
  · intro b hb
    exact runLoop_handed_full nrows inputs (initState nrows) (initState_inv nrows h) b hb
  · intro s inp hbrk
    exact (mainStep_break nrows s inp hbrk).1

/-- Witness for C6: a concrete breaking iteration (failed timestamp) from
the initial two-row state hands nothing off. -/
theorem c6_whole_buffer_handoff_witness :
    0 < 2 ∧
    (mainStep 2 (initState 2) inputBadTime).1.handed = (initState 2).handed :=
  ⟨by norm_num,
   (c6_whole_buffer_handoff 2 [] (by norm_num)).2 (initState 2) inputBadTime
     (by simp [mainStep, getData, initState, inputBadTime, readState0])⟩

end Adhat
